import Mathlib

set_option autoImplicit false

/-!
Verification of the GraphQL gateway in src/index.js: the three root
resolvers (planet, allPlanets, person), the relation helpers fetchResource
and fetchResources, and the upstream SWAPI REST contract they consume.
The upstream API, the HTTP client and the query engine are external
collaborators; they are embedded by their contracts: a frozen dataset
serves every GET, axios rejects on a missing resource, and the query
engine awaits every promise a resolver hands it.
-/

namespace Swapi

/-- Upstream resource references. In src/index.js every relation field holds
an absolute URL into the planets or people endpoint family; such a URL is
abstracted by the family together with the numeric id embedded in it. -/
inductive Url where
  | planet (id : Nat)
  | person (id : Nat)
deriving DecidableEq

/-- A single upstream JSON field value: SWAPI records are flat objects whose
fields are strings, a single relation URL, or an array of relation URLs. -/
inductive FieldVal where
  | str (s : String)
  | url (u : Url)
  | urls (us : List Url)
deriving DecidableEq

/-- An upstream JSON record as parsed from a response body: an ordered list
of named fields. -/
abbrev Obj := List (String × FieldVal)

/-- First-match lookup of a key in an ordered field list, as JS property
access reads an object. -/
def lookupKey {β : Type} (k : String) : List (String × β) → Option β
  | [] => none
  | (k1, v) :: rest => if k1 = k then some v else lookupKey k rest

/-- Lookup of a record by numeric id, as the upstream detail endpoints route
an id to a resource. -/
def lookupId {β : Type} (id : Nat) : List (Nat × β) → Option β
  | [] => none
  | (k1, v) :: rest => if k1 = id then some v else lookupId id rest

/-- One frozen upstream dataset: the records served by the planets and
people detail endpoints, and the results array served by GET /planets,
which root.allPlanets reads as response.data.results. -/
structure Upstream where
  planets : List (Nat × Obj)
  people : List (Nat × Obj)
  planetsPage : List Obj

/-- Failures of the HTTP client: axios rejects when upstream answers with a
non-success status for a resource (notFound carries the requested
reference), or when the request URL is unusable. -/
inductive UpstreamError where
  | notFound (u : Url)
  | invalidUrl
deriving DecidableEq

/-- One axios.get of a resource URL against the dataset: the parsed record
of the addressed resource, or an UpstreamError when it does not exist. -/
def fetchUrl (ds : Upstream) : Url → Except UpstreamError Obj
  | .planet id =>
      match lookupId id ds.planets with
      | some o => .ok o
      | none => .error (.notFound (.planet id))
  | .person id =>
      match lookupId id ds.people with
      | some o => .ok o
      | none => .error (.notFound (.person id))

/-- Resolver-side JSON values: what the resolvers build and hand to the
query engine. -/
inductive JVal where
  | null
  | str (s : String)
  | arr (xs : List JVal)
  | obj (fs : List (String × JVal))

/-- A resolver-side JSON object: an ordered list of named fields. -/
abbrev JObj := List (String × JVal)

/-- The absolute URL string a reference stands for, as serialized in
upstream relation fields. -/
def urlStr : Url → String
  | .planet id => "https://swapi.dev/api/planets/" ++ toString id ++ "/"
  | .person id => "https://swapi.dev/api/people/" ++ toString id ++ "/"

/-- An upstream field value as the resolver sees it after JSON parsing:
relation references are plain URL strings. -/
def fieldToJVal : FieldVal → JVal
  | .str s => .str s
  | .url u => .str (urlStr u)
  | .urls us => .arr (us.map (fun u => .str (urlStr u)))

/-- A whole upstream record viewed as a resolver-side object: the source of
the JS object spread in fetchResource and fetchResources. -/
def objToJVal (o : Obj) : JObj :=
  o.map (fun p => (p.1, fieldToJVal p.2))

/-- JS property read data.k on an upstream record; a missing field resolves
to null at the query engine. -/
def getField (o : Obj) (k : String) : JVal :=
  match lookupKey k o with
  | some v => fieldToJVal v
  | none => .null

/-- JS property read on a resolver-side object. -/
def jGetField (o : JObj) (k : String) : JVal :=
  match lookupKey k o with
  | some v => v
  | none => .null

/-- The JS spread-and-override object literal used by fetchResource and
fetchResources: all fields of the spread object in their original order,
with key k bound to v, overriding in place when the key already occurs and
appended at the end otherwise. -/
def setField (o : JObj) (k : String) (v : JVal) : JObj :=
  if k ∈ o.map Prod.fst then
    o.map (fun p => if p.1 = k then (k, v) else p)
  else o ++ [(k, v)]

/-- Promise.all over a list of already-started fetches, determinised as the
spec fixes it: results are collected in input order, and when any fetch
fails the whole operation fails with the first failing entry in that
order. -/
def promiseAll {α : Type} : List (Except UpstreamError α) → Except UpstreamError (List α)
  | [] => .ok []
  | p :: ps =>
    match p with
    | .error e => .error e
    | .ok x =>
      match promiseAll ps with
      | .error e => .error e
      | .ok xs => .ok (x :: xs)

/-- fetchResource from src/index.js: await axios.get of the URL, then
return the response data spread into a new object carrying a __typename
tag. -/
def fetchResource (ds : Upstream) (url : Url) (ty : String) : Except UpstreamError JObj :=
  match fetchUrl ds url with
  | .error e => .error e
  | .ok data => .ok (setField (objToJVal data) "__typename" (.str ty))

/-- fetchResources from src/index.js: Promise.all over axios.get of every
URL, then map each response to its data spread into a new object carrying a
__typename tag. -/
def fetchResources (ds : Upstream) (urls : List Url) (ty : String) : Except UpstreamError (List JObj) :=
  match promiseAll (urls.map (fetchUrl ds)) with
  | .error e => .error e
  | .ok datas => .ok (datas.map (fun item => setField (objToJVal item) "__typename" (.str ty)))

/-- The residents relation array of an upstream planet record, as
data.residents reads it; a record without such an array contributes no
references. -/
def residentRefs (o : Obj) : List Url :=
  match lookupKey "residents" o with
  | some (.urls us) => us
  | _ => []

/-- The homeworld relation URL of an upstream person record, as
data.homeworld reads it. -/
def homeworldRef (o : Obj) : Option Url :=
  match lookupKey "homeworld" o with
  | some (.url u) => some u
  | _ => none

/-- The planet value built by root.planet and by each element of
root.allPlanets, with the residents relation fully awaited, as the query
engine sees it after resolving the residents field. -/
structure PlanetView where
  name : JVal
  diameter : JVal
  climate : JVal
  terrain : JVal
  residents : List JObj

/-- The resolution of the residents field of planet(id): root.planet stores
the un-awaited fetchResources promise on the returned object, and the query
engine awaits it when it resolves that field. -/
def planetResidents (ds : Upstream) (id : Nat) : Except UpstreamError (List JObj) :=
  match fetchUrl ds (.planet id) with
  | .error e => .error e
  | .ok data => fetchResources ds (residentRefs data) "Person"

/-- root.planet from src/index.js: fetch the planet record by id, then build
the planet value from name, diameter, climate and terrain together with the
residents resolved by fetchResources tagged Person, with the residents
promise awaited. -/
def planet (ds : Upstream) (id : Nat) : Except UpstreamError PlanetView :=
  match fetchUrl ds (.planet id) with
  | .error e => .error e
  | .ok data =>
    match fetchResources ds (residentRefs data) "Person" with
    | .error e => .error e
    | .ok residents =>
      .ok ⟨getField data "name", getField data "diameter",
           getField data "climate", getField data "terrain", residents⟩

/-- The body of the async map inside root.allPlanets: one entry of
response.data.results resolved to its planet value, awaiting its residents
via fetchResources tagged Person. -/
def resolvePagePlanet (ds : Upstream) (p : Obj) : Except UpstreamError PlanetView :=
  match fetchResources ds (residentRefs p) "Person" with
  | .error e => .error e
  | .ok residents =>
    .ok ⟨getField p "name", getField p "diameter",
         getField p "climate", getField p "terrain", residents⟩

/-- root.allPlanets from src/index.js: GET of the planets list endpoint,
then Promise.all of the per-entry resolution over response.data.results. -/
def allPlanets (ds : Upstream) : Except UpstreamError (List PlanetView) :=
  promiseAll (ds.planetsPage.map (resolvePagePlanet ds))

/-- The person value built by root.person, with the homeworld relation
fully awaited. -/
structure PersonView where
  name : JVal
  gender : JVal
  homeworld : JObj

/-- root.person from src/index.js: fetch the person record by id, then build
the person value from name and gender together with the homeworld resolved
by fetchResource tagged Planet, with the homeworld promise awaited; a record
without a usable homeworld URL makes the axios call reject. -/
def person (ds : Upstream) (id : Nat) : Except UpstreamError PersonView :=
  match fetchUrl ds (.person id) with
  | .error e => .error e
  | .ok data =>
    match (match homeworldRef data with
           | some u => fetchResource ds u "Planet"
           | none => .error UpstreamError.invalidUrl) with
    | .error e => .error e
    | .ok hw => .ok ⟨getField data "name", getField data "gender", hw⟩

/-- JSON rendering of a resolved planet value: the object shape the
resolver hands to the query engine, which then prunes unrequested fields. -/
def PlanetView.toObj (p : PlanetView) : JObj :=
  [("name", p.name), ("diameter", p.diameter), ("climate", p.climate),
   ("terrain", p.terrain), ("residents", .arr (p.residents.map JVal.obj))]

/-- JSON rendering of a resolved person value. -/
def PersonView.toObj (p : PersonView) : JObj :=
  [("name", p.name), ("gender", p.gender), ("homeworld", .obj p.homeworld)]

/-- Modelled from the spec (the query engine is an external collaborator):
the pruning the engine applies for the query selecting name and
residents.name on a planet — keep the planet name and, for each resident,
only its name. -/
def pruneNameResidents (pv : PlanetView) : JVal :=
  .obj [("name", pv.name),
        ("residents", .arr (pv.residents.map (fun r => .obj [("name", jGetField r "name")])))]

/-- Modelled from the spec (the query engine is an external collaborator):
the full response envelope for the query selecting planet name and resident
names at a given id — data wraps the pruned planet on success. -/
def queryPlanetNameResidents (ds : Upstream) (id : Nat) : JVal :=
  match planet ds id with
  | .ok pv => .obj [("data", .obj [("planet", pruneNameResidents pv)])]
  | .error _ => .null

/-- A root query document: one of the three entry points of the schema. -/
inductive Query where
  | planetQ (id : Nat)
  | allPlanetsQ
  | personQ (id : Nat)
deriving DecidableEq

/-- Evaluation of one root query against the upstream dataset: the resolver
pipeline, fully awaited, before engine-side pruning. -/
def runQuery (ds : Upstream) : Query → Except UpstreamError JVal
  | .planetQ id => (planet ds id).map (fun pv => .obj pv.toObj)
  | .allPlanetsQ => (allPlanets ds).map (fun ps => .arr (ps.map (fun pv => .obj pv.toObj)))
  | .personQ id => (person ds id).map (fun pv => .obj pv.toObj)

/-- One request handled by the server: the handler evaluates the query
against the upstream dataset, caches nothing, and leaves the dataset
unchanged for the next request. -/
def handle (ds : Upstream) (q : Query) : Except UpstreamError JVal × Upstream :=
  (runQuery ds q, ds)

/-- Fixture person record for Luke Skywalker, carrying the usual upstream
fields beyond those declared in the schema. -/
def lukeRec : Obj :=
  [("name", .str "Luke Skywalker"), ("height", .str "172"), ("mass", .str "77"),
   ("gender", .str "male"), ("homeworld", .url (.planet 1))]

/-- Fixture person record for C-3PO. -/
def c3poRec : Obj :=
  [("name", .str "C-3PO"), ("height", .str "167"), ("mass", .str "75"),
   ("gender", .str "n/a"), ("homeworld", .url (.planet 1))]

/-- Fixture planet record for Tatooine with exactly two resident
references, person 1 and person 2. -/
def tatooineRec : Obj :=
  [("name", .str "Tatooine"), ("rotation_period", .str "23"),
   ("diameter", .str "10465"), ("climate", .str "arid"),
   ("terrain", .str "desert"), ("population", .str "200000"),
   ("residents", .urls [.person 1, .person 2])]

/-- Fixture planet record for Hoth with an empty residents array. -/
def hothRec : Obj :=
  [("name", .str "Hoth"), ("diameter", .str "7200"), ("climate", .str "frozen"),
   ("terrain", .str "tundra"), ("residents", .urls [])]

/-- Fixture dataset: planet 1 is Tatooine with residents Luke Skywalker and
C-3PO, planet 2 is Hoth with no residents, and the planets list endpoint
serves the Tatooine record. -/
def fixture : Upstream :=
  ⟨[(1, tatooineRec), (2, hothRec)], [(1, lukeRec), (2, c3poRec)], [tatooineRec]⟩

/-- The resident object fetchResources builds for Luke Skywalker: the whole
upstream record spread, plus the Person type tag. -/
def lukePerson : JObj := setField (objToJVal lukeRec) "__typename" (.str "Person")

/-- The resident object fetchResources builds for C-3PO. -/
def c3poPerson : JObj := setField (objToJVal c3poRec) "__typename" (.str "Person")

/-- The fully resolved planet value for fixture planet 1. -/
def tatooineView : PlanetView :=
  ⟨.str "Tatooine", .str "10465", .str "arid", .str "desert", [lukePerson, c3poPerson]⟩

/-- The fully resolved person value for fixture person 1. -/
def lukeView : PersonView :=
  ⟨.str "Luke Skywalker", .str "male", setField (objToJVal tatooineRec) "__typename" (.str "Planet")⟩

/-- Broken fixture planet record: Tatooine referencing person 1 and a
dangling person 2. -/
def brokenTatooineRec : Obj :=
  [("name", .str "Tatooine"), ("diameter", .str "10465"), ("climate", .str "arid"),
   ("terrain", .str "desert"), ("residents", .urls [.person 1, .person 2])]

/-- Broken fixture dataset: planet 1 references person 2, which the people
endpoint does not serve, so that single resident fetch rejects. -/
def brokenFixture : Upstream :=
  ⟨[(1, brokenTatooineRec)], [(1, lukeRec)], [brokenTatooineRec]⟩

/-- Indexing commutes with List.map, stated with explicit bounds. -/
theorem get_map {α β : Type} (f : α → β) :
    ∀ (l : List α) (i : Nat) (h1 : i < l.length) (h2 : i < (l.map f).length),
      (l.map f).get ⟨i, h2⟩ = f (l.get ⟨i, h1⟩)
  | _ :: _, 0, _, _ => rfl
  | _ :: l, i + 1, h1, h2 =>
      get_map f l i (Nat.lt_of_succ_lt_succ h1) (Nat.lt_of_succ_lt_succ h2)

/-- A successful Promise.all returns as many results as it was given
promises. -/
theorem promiseAll_ok_length {α : Type} :
    ∀ (ps : List (Except UpstreamError α)) (xs : List α),
      promiseAll ps = .ok xs → xs.length = ps.length := by
  intro ps
  induction ps with
  | nil =>
    intro xs h
    simp only [promiseAll] at h
    cases h
    rfl
  | cons p ps ih =>
    intro xs h
    cases p with
    | error e => simp [promiseAll] at h
    | ok x =>
      simp only [promiseAll] at h
      cases hps : promiseAll ps with
      | error e => rw [hps] at h; cases h
      | ok ys =>
        rw [hps] at h
        cases h
        simp [ih ys hps]

/-- A successful Promise.all returns, at each position, the value of the
promise at that position. -/
theorem promiseAll_ok_get {α : Type} :
    ∀ (ps : List (Except UpstreamError α)) (xs : List α),
      promiseAll ps = .ok xs →
      ∀ (i : Nat) (h1 : i < ps.length) (h2 : i < xs.length),
        ps.get ⟨i, h1⟩ = .ok (xs.get ⟨i, h2⟩) := by
  intro ps
  induction ps with
  | nil =>
    intro xs h i h1 h2
    exact absurd h1 (Nat.not_lt_zero i)
  | cons p ps ih =>
    intro xs h i h1 h2
    cases p with
    | error e => simp [promiseAll] at h
    | ok x =>
      simp only [promiseAll] at h
      cases hps : promiseAll ps with
      | error e => rw [hps] at h; cases h
      | ok ys =>
        rw [hps] at h
        cases h
        cases i with
        | zero => rfl
        | succ j =>
          exact ih ys hps j (Nat.lt_of_succ_lt_succ h1) (Nat.lt_of_succ_lt_succ h2)

/-- When one promise in the list rejects and every other promise resolves,
Promise.all rejects with exactly that error. -/
theorem promiseAll_error_of_mem {α : Type} :
    ∀ (ps : List (Except UpstreamError α)) (e : UpstreamError),
      Except.error e ∈ ps →
      (∀ q ∈ ps, q ≠ Except.error e → ∃ x : α, q = .ok x) →
      promiseAll ps = .error e := by
  intro ps
  induction ps with
  | nil =>
    intro e hmem _
    cases hmem
  | cons p ps ih =>
    intro e hmem hothers
    cases p with
    | error e1 =>
      cases hmem with
      | head => rfl
      | tail _ htail =>
        rcases Classical.em (e1 = e) with rfl | hne
        · rfl
        · rcases hothers (.error e1) (List.Mem.head _) (by simp [hne]) with ⟨x, hx⟩
          cases hx
    | ok x =>
      have htail : Except.error e ∈ ps := by
        cases hmem with
        | tail _ htail => exact htail
      have hrec := ih e htail (fun q hq => hothers q (List.Mem.tail _ hq))
      simp only [promiseAll, hrec]

/-- Specification of a successful fetchResources call: one result per input
URL, and the result at each position is the record fetched from the URL at
that position, spread and tagged. -/
theorem fetchResources_ok_spec (ds : Upstream) (urls : List Url) (ty : String)
    (rs : List JObj) (h : fetchResources ds urls ty = .ok rs) :
    rs.length = urls.length ∧
    ∀ (i : Nat) (h1 : i < urls.length) (h2 : i < rs.length),
      ∃ item : Obj, fetchUrl ds (urls.get ⟨i, h1⟩) = .ok item ∧
        rs.get ⟨i, h2⟩ = setField (objToJVal item) "__typename" (.str ty) := by
  unfold fetchResources at h
  cases hall : promiseAll (urls.map (fetchUrl ds)) with
  | error e => rw [hall] at h; cases h
  | ok datas =>
    rw [hall] at h
    cases h
    have hlen : datas.length = urls.length := by
      have := promiseAll_ok_length (urls.map (fetchUrl ds)) datas hall
      simpa using this
    constructor
    · simp [hlen]
    · intro i h1 h2
      have hid : i < datas.length := by simpa [hlen] using h1
      have hmapped : i < (urls.map (fetchUrl ds)).length := by simpa using h1
      have hget := promiseAll_ok_get (urls.map (fetchUrl ds)) datas hall i hmapped hid
      rw [get_map (fetchUrl ds) urls i h1 hmapped] at hget
      refine ⟨datas.get ⟨i, hid⟩, hget, ?_⟩
      exact get_map _ datas i hid h2

/-- Every element of a successful fetchResources result is some upstream
record spread and tagged. -/
theorem fetchResources_ok_mem (ds : Upstream) (urls : List Url) (ty : String)
    (rs : List JObj) (h : fetchResources ds urls ty = .ok rs) :
    ∀ r ∈ rs, ∃ item : Obj, r = setField (objToJVal item) "__typename" (.str ty) := by
  unfold fetchResources at h
  cases hall : promiseAll (urls.map (fetchUrl ds)) with
  | error e => rw [hall] at h; cases h
  | ok datas =>
    rw [hall] at h
    cases h
    intro r hr
    rcases List.mem_map.1 hr with ⟨item, _, hitem⟩
    exact ⟨item, hitem.symm⟩

/-- A successful page-entry resolution carries exactly the residents
produced by fetchResources on the residents references of the entry. -/
theorem resolvePagePlanet_ok_residents (ds : Upstream) (p : Obj) (pv : PlanetView)
    (h : resolvePagePlanet ds p = .ok pv) :
    fetchResources ds (residentRefs p) "Person" = .ok pv.residents := by
  unfold resolvePagePlanet at h
  cases hfr : fetchResources ds (residentRefs p) "Person" with
  | error e => rw [hfr] at h; cases h
  | ok residents =>
    rw [hfr] at h
    cases h
    rfl

/-- Once the planet record is fetched, root.planet computes exactly the
per-entry resolution of root.allPlanets applied to that record. -/
theorem planet_eq_resolvePage (ds : Upstream) (id : Nat) (record : Obj)
    (hrec : fetchUrl ds (.planet id) = .ok record) :
    planet ds id = resolvePagePlanet ds record := by
  unfold planet resolvePagePlanet
  rw [hrec]

/-- A successful planet resolution carries exactly the residents produced by
fetchResources on the residents references of the fetched record. -/
theorem planet_ok_residents (ds : Upstream) (id : Nat) (record : Obj) (pv : PlanetView)
    (hrec : fetchUrl ds (.planet id) = .ok record)
    (hpl : planet ds id = .ok pv) :
    fetchResources ds (residentRefs record) "Person" = .ok pv.residents := by
  rw [planet_eq_resolvePage ds id record hrec] at hpl
  exact resolvePagePlanet_ok_residents ds record pv hpl

/-- Looking up a key in a spread upstream record returns the parsed value of
the same key of the record. -/
theorem lookupKey_objToJVal (o : Obj) (k : String) :
    lookupKey k (objToJVal o) = (lookupKey k o).map fieldToJVal := by
  induction o with
  | nil => rfl
  | cons p rest ih =>
    by_cases hk : p.1 = k
    · simp [objToJVal, lookupKey, hk]
    · simpa [objToJVal, lookupKey, hk] using ih

/-- Replacing the entries of one key during a map leaves lookups of every
other key unchanged. -/
theorem lookupKey_mapOverride (k k2 : String) (v : JVal) (hne : k2 ≠ k) :
    ∀ (o : JObj), lookupKey k2 (o.map (fun p => if p.1 = k then (k, v) else p)) = lookupKey k2 o := by
  intro o
  induction o with
  | nil => rfl
  | cons p rest ih =>
    obtain ⟨k1, v1⟩ := p
    simp only [List.map_cons]
    by_cases hp : k1 = k
    · rw [if_pos hp]
      simp only [lookupKey]
      rw [if_neg (Ne.symm hne), if_neg]
      · exact ih
      · rw [hp]; exact Ne.symm hne
    · rw [if_neg hp]
      simp only [lookupKey]
      by_cases hq : k1 = k2
      · rw [if_pos hq, if_pos hq]
      · rw [if_neg hq, if_neg hq]; exact ih

/-- Appending an entry with a fresh key leaves lookups of every other key
unchanged. -/
theorem lookupKey_append_single (k k2 : String) (v : JVal) (hne : k2 ≠ k) :
    ∀ (o : JObj), lookupKey k2 (o ++ [(k, v)]) = lookupKey k2 o := by
  intro o
  induction o with
  | nil =>
    simp only [List.nil_append, lookupKey]
    rw [if_neg (Ne.symm hne)]
  | cons p rest ih =>
    obtain ⟨k1, v1⟩ := p
    simp only [List.cons_append, lookupKey]
    by_cases hq : k1 = k2
    · rw [if_pos hq, if_pos hq]
    · rw [if_neg hq, if_neg hq]; exact ih

/-- Overriding one key of an object leaves lookups of every other key
unchanged. -/
theorem lookupKey_setField_ne (o : JObj) (k k2 : String) (v : JVal) (hne : k2 ≠ k) :
    lookupKey k2 (setField o k v) = lookupKey k2 o := by
  unfold setField
  by_cases hmem : k ∈ o.map Prod.fst
  · rw [if_pos hmem]
    exact lookupKey_mapOverride k k2 v hne o
  · rw [if_neg hmem]
    exact lookupKey_append_single k k2 v hne o

/-- Reading any key other than the tag key of a spread-and-tagged record
reads the parsed upstream field of the same key. -/
theorem jGetField_tagged (item : Obj) (ty k : String) (hk : k ≠ "__typename") :
    jGetField (setField (objToJVal item) "__typename" (.str ty)) k = getField item k := by
  unfold jGetField getField
  rw [lookupKey_setField_ne (objToJVal item) "__typename" k (.str ty) hk, lookupKey_objToJVal]
  cases lookupKey k item <;> rfl

/-- Inversion of a successful person resolution: the person record was
fetched, its homeworld URL was present, the homeworld record was fetched,
and the value is built from the declared fields together with the tagged
spread of the homeworld record. -/
theorem person_ok_inv (ds : Upstream) (id : Nat) (pw : PersonView)
    (hpw : person ds id = .ok pw) :
    ∃ (data : Obj) (u : Url) (hwrec : Obj),
      fetchUrl ds (.person id) = .ok data ∧
      homeworldRef data = some u ∧
      fetchUrl ds u = .ok hwrec ∧
      pw = ⟨getField data "name", getField data "gender",
            setField (objToJVal hwrec) "__typename" (.str "Planet")⟩ := by
  unfold person at hpw
  split at hpw
  · cases hpw
  · rename_i data hrec
    split at hpw
    · cases hpw
    · rename_i hw hok
      cases hpw
      cases hhw : homeworldRef data with
      | none => rw [hhw] at hok; cases hok
      | some u =>
        simp only [hhw] at hok
        unfold fetchResource at hok
        cases hfetch : fetchUrl ds u with
        | error e => rw [hfetch] at hok; cases hok
        | ok hwrec =>
          rw [hfetch] at hok
          cases hok
          exact ⟨data, u, hwrec, hrec, hhw, hfetch, rfl⟩

/-- Claim C1: for every upstream dataset, a successful allPlanets resolution
returns one planet value per entry of the upstream planet list, and each
element carries one resident per resident reference of its list entry, in
upstream order, each resident being the record fetched from the reference at
the same position, spread and tagged Person. -/
theorem allPlanets_length_and_residents (ds : Upstream) (ps : List PlanetView)
    (h : allPlanets ds = .ok ps) :
    ps.length = ds.planetsPage.length ∧
    ∀ (i : Nat) (h1 : i < ds.planetsPage.length) (h2 : i < ps.length),
      (ps.get ⟨i, h2⟩).residents.length = (residentRefs (ds.planetsPage.get ⟨i, h1⟩)).length ∧
      ∀ (j : Nat) (hj1 : j < (residentRefs (ds.planetsPage.get ⟨i, h1⟩)).length)
        (hj2 : j < (ps.get ⟨i, h2⟩).residents.length),
        ∃ item : Obj,
          fetchUrl ds ((residentRefs (ds.planetsPage.get ⟨i, h1⟩)).get ⟨j, hj1⟩) = .ok item ∧
          (ps.get ⟨i, h2⟩).residents.get ⟨j, hj2⟩ =
            setField (objToJVal item) "__typename" (.str "Person") := by
  unfold allPlanets at h
  have hlen : ps.length = ds.planetsPage.length := by
    have := promiseAll_ok_length _ ps h
    simpa using this
  refine ⟨hlen, ?_⟩
  intro i h1 h2
  have hm : i < (ds.planetsPage.map (resolvePagePlanet ds)).length := by simpa using h1
  have hget := promiseAll_ok_get _ ps h i hm h2
  rw [get_map (resolvePagePlanet ds) ds.planetsPage i h1 hm] at hget
  exact fetchResources_ok_spec ds _ "Person" _ (resolvePagePlanet_ok_residents ds _ _ hget)

/-- Witness for C1 at the fixture: allPlanets resolves and is as long as the
upstream planet list. -/
theorem allPlanets_length_and_residents_witness :
    allPlanets fixture = .ok [tatooineView] ∧
    ([tatooineView] : List PlanetView).length = fixture.planetsPage.length :=
  ⟨rfl, (allPlanets_length_and_residents fixture [tatooineView] rfl).1⟩

/-- Claim C2: for a valid planet id, the resolved planet carries one
resident per resident reference of the upstream planet record, in upstream
order, each resident being the record fetched from the reference at the same
position, spread and tagged Person. -/
theorem planet_residents_length_order (ds : Upstream) (id : Nat) (record : Obj) (pv : PlanetView)
    (hrec : fetchUrl ds (.planet id) = .ok record)
    (hpl : planet ds id = .ok pv) :
    pv.residents.length = (residentRefs record).length ∧
    ∀ (i : Nat) (h1 : i < (residentRefs record).length) (h2 : i < pv.residents.length),
      ∃ item : Obj, fetchUrl ds ((residentRefs record).get ⟨i, h1⟩) = .ok item ∧
        pv.residents.get ⟨i, h2⟩ = setField (objToJVal item) "__typename" (.str "Person") :=
  fetchResources_ok_spec ds _ "Person" _ (planet_ok_residents ds id record pv hrec hpl)

/-- Witness for C2 at the fixture: planet 1 resolves and carries as many
residents as the Tatooine record references. -/
theorem planet_residents_length_order_witness :
    planet fixture 1 = .ok tatooineView ∧
    tatooineView.residents.length = (residentRefs tatooineRec).length :=
  ⟨rfl, (planet_residents_length_order fixture 1 tatooineRec tatooineView rfl rfl).1⟩

/-- Claim C3 as stated is false: the resident objects the planet resolver
returns are whole upstream records spread by fetchResources, so they carry
fields outside the schema declaration of Person, such as height. -/
theorem resolver_leaks_undeclared_fields :
    ∃ pv : PlanetView, planet fixture 1 = .ok pv ∧
      ∃ r ∈ pv.residents, ∃ k ∈ r.map Prod.fst,
        k ∉ (["name", "gender", "homeworld"] : List String) :=
  ⟨tatooineView, rfl, lukePerson,
   show lukePerson ∈ [lukePerson, c3poPerson] from List.Mem.head _,
   "height", by decide, by decide⟩

/-- Claim C3 amended: the top-level object built by each resolver carries
exactly the fields declared in the schema for its type, while the nested
objects produced by fetchResource and fetchResources — the residents of a
planet and the homeworld of a person — carry every field of the upstream
record plus the __typename tag; pruning of undeclared fields is left to the
query engine. -/
theorem resolver_fields_amended (ds : Upstream) (idp idq : Nat) :
    (∀ pv : PlanetView, planet ds idp = .ok pv →
      (PlanetView.toObj pv).map Prod.fst = ["name", "diameter", "climate", "terrain", "residents"] ∧
      ∀ r ∈ pv.residents, ∃ item : Obj,
        r = setField (objToJVal item) "__typename" (.str "Person")) ∧
    (∀ ps : List PlanetView, allPlanets ds = .ok ps → ∀ pv ∈ ps,
      (PlanetView.toObj pv).map Prod.fst = ["name", "diameter", "climate", "terrain", "residents"] ∧
      ∀ r ∈ pv.residents, ∃ item : Obj,
        r = setField (objToJVal item) "__typename" (.str "Person")) ∧
    (∀ pw : PersonView, person ds idq = .ok pw →
      (PersonView.toObj pw).map Prod.fst = ["name", "gender", "homeworld"] ∧
      ∃ item : Obj, pw.homeworld = setField (objToJVal item) "__typename" (.str "Planet")) := by
  refine ⟨?_, ?_, ?_⟩
  · intro pv hpv
    refine ⟨rfl, ?_⟩
    cases hrec : fetchUrl ds (.planet idp) with
    | error e =>
      unfold planet at hpv
      rw [hrec] at hpv
      cases hpv
    | ok record =>
      exact fetchResources_ok_mem ds _ "Person" _ (planet_ok_residents ds idp record pv hrec hpv)
  · intro ps hps pv hpv
    refine ⟨rfl, ?_⟩
    unfold allPlanets at hps
    rcases List.get_of_mem hpv with ⟨⟨i, h2⟩, hi⟩
    have hlen := promiseAll_ok_length _ ps hps
    have hm : i < (ds.planetsPage.map (resolvePagePlanet ds)).length := by
      rw [← hlen]; exact h2
    have h1 : i < ds.planetsPage.length := by simpa using hm
    have hget := promiseAll_ok_get _ ps hps i hm h2
    rw [get_map (resolvePagePlanet ds) ds.planetsPage i h1 hm] at hget
    rw [hi] at hget
    exact fetchResources_ok_mem ds _ "Person" _ (resolvePagePlanet_ok_residents ds _ pv hget)
  · intro pw hpw
    refine ⟨rfl, ?_⟩
    rcases person_ok_inv ds idq pw hpw with ⟨data, u, hwrec, _, _, _, hval⟩
    exact ⟨hwrec, by rw [hval]⟩

/-- Witness for the amended C3 at the fixture: the top-level planet and
person objects carry exactly the declared fields. -/
theorem resolver_fields_amended_witness :
    (PlanetView.toObj tatooineView).map Prod.fst =
      ["name", "diameter", "climate", "terrain", "residents"] ∧
    (PersonView.toObj lukeView).map Prod.fst = ["name", "gender", "homeworld"] :=
  ⟨((resolver_fields_amended fixture 1 1).1 tatooineView rfl).1,
   ((resolver_fields_amended fixture 1 1).2.2 lukeView rfl).1⟩

/-- Claim C4: when the fetch of one resident of a planet rejects with an
UpstreamError while every other resident fetch resolves, the resolution of
that planet residents field fails as a whole with that error, so no partial
resident list is ever returned. -/
theorem residents_fail_whole (ds : Upstream) (id : Nat) (record : Obj) (u : Url) (e : UpstreamError)
    (hrec : fetchUrl ds (.planet id) = .ok record)
    (hu : u ∈ residentRefs record)
    (he : fetchUrl ds u = .error e)
    (hothers : ∀ v ∈ residentRefs record, v ≠ u → ∃ o : Obj, fetchUrl ds v = .ok o) :
    planetResidents ds id = .error e := by
  unfold planetResidents
  rw [hrec]
  show fetchResources ds (residentRefs record) "Person" = .error e
  unfold fetchResources
  have hall : promiseAll ((residentRefs record).map (fetchUrl ds)) = .error e := by
    apply promiseAll_error_of_mem
    · exact List.mem_map.2 ⟨u, hu, he⟩
    · intro q hq hqe
      rcases List.mem_map.1 hq with ⟨v, hv, hfv⟩
      rcases Classical.em (v = u) with rfl | hne
      · exact absurd (by rw [← hfv]; exact he) hqe
      · rcases hothers v hv hne with ⟨o, ho⟩
        exact ⟨o, by rw [← hfv]; exact ho⟩
  rw [hall]

/-- Witness for C4 at the broken fixture: person 2 is dangling, so the
residents field of planet 1 rejects with exactly that notFound error. -/
theorem residents_fail_whole_witness :
    planetResidents brokenFixture 1 = .error (.notFound (.person 2)) := by
  apply residents_fail_whole brokenFixture 1 brokenTatooineRec (.person 2)
    (.notFound (.person 2)) rfl (by decide) rfl
  intro v hv hne
  have hv2 : v ∈ [Url.person 1, Url.person 2] := hv
  cases hv2 with
  | head => exact ⟨lukeRec, rfl⟩
  | tail _ h =>
    cases h with
    | head => exact absurd rfl hne
    | tail _ h2 => cases h2

/-- Claim C5: an id whose upstream resource does not exist makes the planet
and person resolvers fail with the upstream error; neither resolver returns
a null or empty value. -/
theorem missing_resource_errors (ds : Upstream) (idp idq : Nat)
    (hp : lookupId idp ds.planets = none)
    (hq : lookupId idq ds.people = none) :
    planet ds idp = .error (.notFound (.planet idp)) ∧
    person ds idq = .error (.notFound (.person idq)) := by
  constructor
  · have h1 : fetchUrl ds (.planet idp) = .error (.notFound (.planet idp)) := by
      simp only [fetchUrl, hp]
    unfold planet
    rw [h1]
  · have h2 : fetchUrl ds (.person idq) = .error (.notFound (.person idq)) := by
      simp only [fetchUrl, hq]
    unfold person
    rw [h2]

/-- Witness for C5 at the fixture: id 99 exists on neither endpoint family
and both resolvers reject. -/
theorem missing_resource_errors_witness :
    planet fixture 99 = .error (.notFound (.planet 99)) ∧
    person fixture 99 = .error (.notFound (.person 99)) :=
  missing_resource_errors fixture 99 99 rfl rfl

/-- Claim C6: against the fixture where upstream planet 1 is Tatooine with
exactly the residents Luke Skywalker and C-3PO, the query selecting the
planet name and the resident names at id 1 returns exactly the expected
response envelope. -/
theorem fixture_query_result :
    queryPlanetNameResidents fixture 1 =
      .obj [("data", .obj [("planet", .obj
        [("name", .str "Tatooine"),
         ("residents", .arr [.obj [("name", .str "Luke Skywalker")],
                             .obj [("name", .str "C-3PO")]])])])] := rfl

/-- Claim C7: for a valid person id, the homeworld object of the resolved
person carries a name equal to the name of the upstream planet record
referenced by the homeworld URL of that person. -/
theorem person_homeworld_name (ds : Upstream) (id : Nat) (data hwrec : Obj) (u : Url)
    (pw : PersonView)
    (hrec : fetchUrl ds (.person id) = .ok data)
    (hhw : homeworldRef data = some u)
    (hfetch : fetchUrl ds u = .ok hwrec)
    (hpw : person ds id = .ok pw) :
    jGetField pw.homeworld "name" = getField hwrec "name" := by
  rcases person_ok_inv ds id pw hpw with ⟨data2, u2, hwrec2, hrec2, hhw2, hfetch2, hval⟩
  rw [hrec] at hrec2
  cases hrec2
  rw [hhw] at hhw2
  cases hhw2
  rw [hfetch] at hfetch2
  cases hfetch2
  rw [hval]
  exact jGetField_tagged hwrec "Planet" "name" (by decide)

/-- Witness for C7 at the fixture: the homeworld of person 1 carries the
name of the Tatooine record. -/
theorem person_homeworld_name_witness :
    jGetField lukeView.homeworld "name" = getField tatooineRec "name" :=
  person_homeworld_name fixture 1 lukeRec tatooineRec (.planet 1) lukeView rfl rfl rfl rfl

/-- Claim C8: the handler holds no mutable state and caches nothing, so
issuing the same query twice against an unchanged upstream dataset — the
second request running on the state the first one left behind — returns the
same result. -/
theorem same_query_twice_same_result (ds : Upstream) (q : Query) :
    (handle (handle ds q).2 q).1 = (handle ds q).1 := rfl

/-- Claim C9: a valid planet whose upstream record has an empty residents
reference array resolves successfully to a planet value with an empty
residents sequence, not to an error. -/
theorem empty_residents_ok (ds : Upstream) (id : Nat) (record : Obj)
    (hrec : fetchUrl ds (.planet id) = .ok record)
    (hempty : residentRefs record = []) :
    planet ds id = .ok ⟨getField record "name", getField record "diameter",
                        getField record "climate", getField record "terrain", []⟩ := by
  rw [planet_eq_resolvePage ds id record hrec]
  unfold resolvePagePlanet
  rw [hempty]
  rfl

/-- Witness for C9 at the fixture: planet 2 (Hoth) has no residents and
resolves to an empty residents sequence. -/
theorem empty_residents_ok_witness :
    planet fixture 2 = .ok ⟨getField hothRec "name", getField hothRec "diameter",
                            getField hothRec "climate", getField hothRec "terrain", []⟩ :=
  empty_residents_ok fixture 2 hothRec rfl rfl

/-- Claim C10: when the upstream detail record of a planet id is identical
to an entry of the upstream planet list, the fully resolved planet value
produced by the planet resolver equals the corresponding element produced by
a successful allPlanets resolution. -/
theorem planet_allPlanets_agree (ds : Upstream) (id : Nat) (i : Nat) (ps : List PlanetView)
    (h1 : i < ds.planetsPage.length)
    (hdetail : fetchUrl ds (.planet id) = .ok (ds.planetsPage.get ⟨i, h1⟩))
    (hall : allPlanets ds = .ok ps) (h2 : i < ps.length) :
    planet ds id = .ok (ps.get ⟨i, h2⟩) := by
  unfold allPlanets at hall
  have hm : i < (ds.planetsPage.map (resolvePagePlanet ds)).length := by simpa using h1
  have hget := promiseAll_ok_get _ ps hall i hm h2
  rw [get_map (resolvePagePlanet ds) ds.planetsPage i h1 hm] at hget
  rw [planet_eq_resolvePage ds id _ hdetail]
  exact hget

/-- Witness for C10 at the fixture: planet 1 is served identically by the
detail endpoint and the list page, and both resolutions agree. -/
theorem planet_allPlanets_agree_witness :
    planet fixture 1 = .ok tatooineView := by
  have h := planet_allPlanets_agree fixture 1 0 [tatooineView] (by decide) rfl rfl (by decide)
  exact h

end Swapi
